import Mathlib

/-!
Verification development for the zombie-shooter repository.

The definitions below are a shallow embedding of the Python source:
  * `src/src/weapons/weapon.py`   — `WeaponType`, `Weapon`, `Grenade`
  * `src/src/entities/player.py`  — `Player.shoot`, movement, health
  * `src/src/game.py`             — the grenade-explosion pass of `Game.update`
  * `src/src/managers/wave_manager.py` — `WaveManager`
  * `src/src/structures/traps.py` — `SlowTrap.update`

Conventions: pygame millisecond timestamps become `ℤ`; Python floats become
`ℚ` (every numeric literal in the relevant code is a short decimal); Python
`int()` truncation is modelled exactly (`pyInt`); randomness (spread angles)
is passed in as an explicit list of draws; the pygame rendering calls have no
effect on the modelled state and are omitted.
-/

namespace ZombieShooter

/-- Python `int()`: truncation toward zero on a rational. -/
def pyInt (q : ℚ) : ℤ := if 0 ≤ q then ⌊q⌋ else -⌊-q⌋

/-- `WeaponType` enum from `weapon.py`. -/
inductive WeaponType where
  | knife
  | pistol
  | assault_rifle
  | shotgun
  | smg
  | battle_rifle
deriving DecidableEq, Repr

open WeaponType

/-- `fire_rate` per type (seconds between shots), from `Weapon.__init__`. -/
def fire_rate : WeaponType → ℚ
  | pistol => 7/10
  | shotgun => 3/2
  | smg => 3/5
  | assault_rifle => 9/10
  | battle_rifle => 3/2
  | knife => 1/2

/-- `reload_time` per type (seconds, per stage), from `Weapon.__init__`. -/
def reload_time : WeaponType → ℚ
  | pistol => 6/5
  | shotgun => 3/5
  | smg => 9/5
  | assault_rifle => 11/5
  | battle_rifle => 5/2
  | knife => 0

/-- `ammo_capacity` per type (`None` for the knife), from `Weapon.__init__`. -/
def ammo_capacity : WeaponType → Option ℕ
  | pistol => some 12
  | shotgun => some 6
  | smg => some 30
  | assault_rifle => some 25
  | battle_rifle => some 10
  | knife => none

/-- The capacity of an ammo-tracked weapon (0 for the knife, unused there). -/
def capacity (t : WeaponType) : ℕ := (ammo_capacity t).getD 0

/-- `reload_stages` per type, from `Weapon.__init__`. -/
def reload_stages : WeaponType → ℕ
  | pistol => 1
  | shotgun => 6
  | smg => 1
  | assault_rifle => 2
  | battle_rifle => 2
  | knife => 0

/-- `damage` per type, from `Weapon.__init__`. -/
def weapon_damage : WeaponType → ℤ
  | pistol => 10
  | shotgun => 16
  | smg => 10
  | assault_rifle => 20
  | battle_rifle => 40
  | knife => 50

/-- `auto` per type, from `Weapon.__init__`. -/
def is_automatic : WeaponType → Bool
  | smg => true
  | assault_rifle => true
  | _ => false

/-- Base spread per type, from `Weapon.create_bullet`. -/
def base_spread : WeaponType → ℚ
  | pistol => 1/20
  | shotgun => 1/5
  | smg => 3/20
  | assault_rifle => 2/25
  | battle_rifle => 3/100
  | knife => 0

/-- A bullet as spawned by `Weapon.create_bullet` (position, final angle
after spread, damage).  The cos/sin kinematics derived from the angle play
no role in any claim and are not modelled. -/
structure Bullet where
  x : ℚ
  y : ℚ
  angle : ℚ
  damage : ℤ
deriving DecidableEq, Repr

/-- Mutable runtime state of `Weapon` (the per-type constants live in the
functions above, keyed by `type`). -/
structure Weapon where
  type : WeaponType
  current_ammo : Option ℕ
  last_shot_time : ℤ
  is_reloading : Bool
  reload_start_time : ℤ
  reload_stage : ℕ
  has_fired_once : Bool
deriving DecidableEq, Repr

/-- `Weapon.__init__`: fresh weapon of a type, full ammo. -/
def mkWeapon (t : WeaponType) : Weapon :=
  { type := t
    current_ammo := ammo_capacity t
    last_shot_time := 0
    is_reloading := false
    reload_start_time := 0
    reload_stage := 0
    has_fired_once := false }

def Weapon.is_melee (w : Weapon) : Bool := w.type == knife

/-- Clamp a shotgun pellet spread into `[-base, base]`
(`max(-base_spread, min(base_spread, pellet_spread))`). -/
def clampSpread (base s : ℚ) : ℚ := max (-base) (min base s)

/-- `Weapon.create_bullet`.  `draws` supplies the random spread values
(`random.uniform` / `random.gauss` results), one per spawned bullet;
a missing draw reads as 0. -/
def Weapon.create_bullet (w : Weapon) (x y angle : ℚ) (draws : List ℚ) :
    Weapon × List Bullet :=
  if w.is_melee then (w, [])
  else
    let consumed : Option Weapon :=
      match w.current_ammo with
      | none => some w
      | some a =>
        if a ≤ 0 then none
        else some { w with current_ammo := some (a - 1), has_fired_once := true }
    match consumed with
    | none => (w, [])
    | some w' =>
      if w'.type = shotgun then
        let pellets := (List.range 6).map (fun i =>
          let s := clampSpread (base_spread shotgun) (draws.getD i 0)
          Bullet.mk x y (angle + s) (weapon_damage w'.type))
        (w', pellets)
      else
        let s := draws.getD 0 0
        let s := if is_automatic w'.type && w'.has_fired_once then s * (3/2) else s
        (w', [Bullet.mk x y (angle + s) (weapon_damage w'.type)])

/-- `Weapon.start_reload` (called at time `now`, pygame ms). -/
def Weapon.start_reload (w : Weapon) (now : ℤ) : Weapon :=
  if !w.is_melee && !w.is_reloading && w.current_ammo.isSome
      && decide (w.current_ammo.getD 0 < capacity w.type) then
    let w' := { w with is_reloading := true, reload_start_time := now,
                       reload_stage := 0 }
    if w'.type = assault_rifle ∨ w'.type = battle_rifle then
      { w' with current_ammo := some 0 }
    else w'
  else w

/-- `Weapon.finish_reload`. -/
def Weapon.finish_reload (w : Weapon) : Weapon :=
  let w' := { w with is_reloading := false }
  let w'' := if w'.type ≠ shotgun
             then { w' with current_ammo := some (capacity w'.type) }
             else w'
  { w'' with reload_stage := 0 }

/-- `Weapon.continue_reload` (called at time `now`, pygame ms). -/
def Weapon.continue_reload (w : Weapon) (now : ℤ) : Weapon :=
  if w.is_reloading then
    let stage_duration : ℚ := reload_time w.type * 1000
    if ((now - w.reload_start_time : ℤ) : ℚ) ≥ stage_duration then
      if w.type = shotgun then
        if w.current_ammo.getD 0 < capacity w.type then
          let w' := { w with current_ammo := some (w.current_ammo.getD 0 + 1) }
          if w'.current_ammo.getD 0 < capacity w'.type then
            { w' with reload_start_time := now, reload_stage := w'.reload_stage + 1 }
          else w'.finish_reload
        else w
      else
        let w' := { w with reload_stage := w.reload_stage + 1 }
        if w'.reload_stage ≥ reload_stages w'.type then w'.finish_reload
        else { w' with reload_start_time := now }
    else w
  else w

/-- `Weapon.can_shoot`: the (correct, seconds-based) fire-gate helper. -/
def Weapon.can_shoot (w : Weapon) (now : ℤ) : Bool :=
  if w.is_reloading then false
  else if ((now - w.last_shot_time : ℤ) : ℚ) / 1000 < fire_rate w.type then false
  else if w.current_ammo.isSome && w.current_ammo.getD 0 ≤ 0 then false
  else true

/-- `Player.shoot`, bullet branch.  The gate compares
`current_time - last_shot_time` (pygame **milliseconds**) directly against
`fire_rate` (**seconds**), exactly as the source does.  The melee branch
deals direct damage to zombies and returns no bullets; its zombie side
effects are outside this weapon-state model. -/
def Player.shoot (w : Weapon) (x y angle : ℚ) (now : ℤ) (draws : List ℚ) :
    Weapon × List Bullet :=
  if ((now - w.last_shot_time : ℤ) : ℚ) ≥ fire_rate w.type then
    if w.is_melee then (w, [])
    else
      let r := w.create_bullet x y angle draws
      if r.2 ≠ [] then ({ r.1 with last_shot_time := now }, r.2)
      else r
  else (w, [])

/-- `Player.take_damage`: `health = max(0, health - amount)`. -/
def Player.take_damage (health : ℤ) (amount : ℤ) : ℤ := max 0 (health - amount)

/-- `Player.heal`: `health = min(max_health, health + amount)`. -/
def Player.heal (health max_health amount : ℤ) : ℤ :=
  min max_health (health + amount)

/-- `Player.speed`. -/
def player_speed : ℚ := 7

/-- The literal `0.7071` used for diagonal normalization in `Player.update`. -/
def diag_factor : ℚ := 7071/10000

/-- The movement part of `Player.update`: per-tick displacement from the
four key states, before world-bounds clamping. -/
def Player.move_delta (l r u d : Bool) : ℚ × ℚ :=
  let dx := (if l then -player_speed else 0) + (if r then player_speed else 0)
  let dy := (if u then -player_speed else 0) + (if d then player_speed else 0)
  if dx ≠ 0 ∧ dy ≠ 0 then (dx * diag_factor, dy * diag_factor) else (dx, dy)

/-! ### Grenade and the explosion pass of `Game.update` -/

/-- Grenade constants from `Grenade.__init__` (`weapon.py`). -/
def grenade_speed : ℚ := 8
def grenade_explosion_radius : ℚ := 100
def grenade_base_damage : ℤ := 100
def grenade_explosion_duration : ℤ := 500
def grenade_fuse_time : ℤ := 2000

/-- `Grenade` state (`weapon.py`).  `killed` models `self.kill()`
(removal from the sprite group). -/
structure Grenade where
  x : ℚ
  y : ℚ
  dx : ℚ
  dy : ℚ
  exploded : Bool
  explosion_time : ℤ
  throw_time : ℤ
  killed : Bool
deriving DecidableEq, Repr

/-- `Grenade.__init__`, thrown at time `t0` toward direction `(dx, dy)`. -/
def mkGrenade (x y dx dy : ℚ) (t0 : ℤ) : Grenade :=
  { x := x, y := y, dx := dx, dy := dy, exploded := false,
    explosion_time := 0, throw_time := t0, killed := false }

/-- `Grenade.update(current_time)`: move while armed, explode once the fuse
elapses, and `kill()` once the explosion visual duration has passed. -/
def Grenade.update (g : Grenade) (now : ℤ) : Grenade :=
  if !g.exploded then
    let g' := { g with x := g.x + g.dx * grenade_speed,
                       y := g.y + g.dy * grenade_speed }
    if now - g'.throw_time ≥ grenade_fuse_time then
      { g' with exploded := true, explosion_time := now }
    else g'
  else if now - g.explosion_time > grenade_explosion_duration then
    { g with killed := true }
  else g

/-- The per-zombie damage of the explosion pass in `Game.update`
(lines 291-301 of `game.py`): a zombie at center distance `d` takes
`int(damage * (1 - distance/explosion_radius))` when `d ≤ radius`, and
is not touched otherwise. -/
def explosionDamage (d : ℚ) : ℤ :=
  if d ≤ grenade_explosion_radius then
    pyInt ((grenade_base_damage : ℚ) * (1 - d / grenade_explosion_radius))
  else 0

/-- `Zombie.take_damage`: `health -= amount` (death handling is removal at
`health ≤ 0`; the subtraction itself is unclamped). -/
def Zombie.take_damage (health : ℤ) (amount : ℤ) : ℤ := health - amount

/-- One tick of the grenade section of `Game.update` for one grenade and one
zombie whose center sits at Euclidean distance `d` from the grenade's center
this tick: the grenade is updated, and then — whenever `exploded` is true,
killed this tick or not — the radius check and falloff damage run. -/
def grenadeTick (g : Grenade) (zombieHealth : ℤ) (d : ℚ) (now : ℤ) :
    Grenade × ℤ :=
  if g.killed then (g, zombieHealth)
  else
    let g' := g.update now
    if g'.exploded then (g', Zombie.take_damage zombieHealth (explosionDamage d))
    else (g', zombieHealth)

/-! ### Wave manager (`wave_manager.py`) and the wave-completion check -/

/-- Wave-manager constants from `WaveManager.__init__`. -/
def base_zombies : ℕ := 5
def zombies_per_wave : ℕ := 2

/-- Mutable state of `WaveManager` (spawn timing is abstracted into the
per-tick `spawnTimerElapsed` input of `waveUpdate`). -/
structure WaveState where
  current_wave : ℕ
  zombies_to_spawn : ℕ
  wave_complete_flag : Bool
deriving DecidableEq, Repr

/-- `WaveManager.__init__`. -/
def mkWaveState : WaveState :=
  { current_wave := 0, zombies_to_spawn := 0, wave_complete_flag := false }

/-- `WaveManager.start_next_wave`. -/
def startNextWave (w : WaveState) : WaveState :=
  { current_wave := w.current_wave + 1
    zombies_to_spawn := base_zombies + w.current_wave * zombies_per_wave
    wave_complete_flag := false }

/-- `WaveManager.update` while the game is PLAYING and not paused, together
with its spawn side effect on the live-zombie count.  `spawnTimerElapsed`
stands for `current_time - last_spawn_time > spawn_delay`. -/
def waveUpdate (w : WaveState) (live : ℕ) (spawnTimerElapsed : Bool) :
    WaveState × ℕ :=
  if w.zombies_to_spawn = 0 then
    (if live = 0 then { w with wave_complete_flag := true } else w, live)
  else if spawnTimerElapsed then
    ({ w with zombies_to_spawn := w.zombies_to_spawn - 1 }, live + 1)
  else (w, live)

/-- `WaveManager.wave_complete`. -/
def waveComplete (w : WaveState) : Bool :=
  w.wave_complete_flag && w.zombies_to_spawn == 0

/-- The wave-relevant slice of the whole simulation: manager state, live
zombie count, and whether the game state is PLAYING. -/
structure SimState where
  wave : WaveState
  live : ℕ
  playing : Bool
deriving DecidableEq, Repr

/-- One PLAYING tick of `Game.update` as it affects the wave system:
`deaths` zombies die in the combat passes, then `WaveManager.update` runs,
then `Game.update` switches to SHOPPING when `wave_complete()` holds. -/
def simTick (s : SimState) (deaths : ℕ) (spawnTimerElapsed : Bool) : SimState :=
  let live' := s.live - deaths
  let r := waveUpdate s.wave live' spawnTimerElapsed
  { wave := r.1, live := r.2, playing := !waveComplete r.1 }

/-- States of the wave system reachable in the game: the game starts in
SHOPPING with no zombies, the shop's start trigger calls
`start_next_wave` and enters PLAYING, and PLAYING ticks run `simTick`. -/
inductive WaveReachable : SimState → Prop
  | init : WaveReachable ⟨mkWaveState, 0, false⟩
  | start (s : SimState) (h : WaveReachable s) (hp : s.playing = false) :
      WaveReachable ⟨startNextWave s.wave, s.live, true⟩
  | tick (s : SimState) (deaths : ℕ) (spawnTimerElapsed : Bool)
      (h : WaveReachable s) (hp : s.playing = true) :
      WaveReachable (simTick s deaths spawnTimerElapsed)

/-! ### SlowTrap (`traps.py`) -/

/-- SlowTrap constants from `SlowTrap.__init__`. -/
def slow_factor : ℚ := 1/2
def slow_duration : ℤ := 2000
def slow_cooldown_time : ℤ := 1000

/-- `SlowTrap` mutable state: cooldown deadline and the
`affected_zombies` dict (`zombie -> end_time`, insertion-ordered).
Zombies are identified by an index into the zombie collection; their
speeds live in the `speeds` map passed through `SlowTrap.update`. -/
structure SlowTrap where
  cooldown : ℤ
  affected : List (ℕ × ℤ)
deriving DecidableEq, Repr

/-- The expiry loop of `SlowTrap.update`: every entry whose `end_time` has
passed restores the zombie's speed (`speed /= slow_factor`) and is removed. -/
def expireStep (now : ℤ) (speeds : ℕ → ℚ) : List (ℕ × ℤ) →
    (ℕ → ℚ) × List (ℕ × ℤ)
  | [] => (speeds, [])
  | (z, e) :: rest =>
    if now ≥ e then
      expireStep now (fun i => if i = z then speeds i / slow_factor else speeds i)
        rest
    else
      let r := expireStep now speeds rest
      (r.1, (z, e) :: r.2)

/-- `SlowTrap.update(game)` at time `now`.  `colliding` lists, in the
iteration order of `game.zombies`, the zombies whose rect collides with the
trap; the collision loop slows the first one not already in
`affected_zombies` and breaks. -/
def SlowTrap.update (t : SlowTrap) (speeds : ℕ → ℚ) (colliding : List ℕ)
    (now : ℤ) : SlowTrap × (ℕ → ℚ) :=
  let cd := if t.cooldown > 0 ∧ now ≥ t.cooldown then 0 else t.cooldown
  let r := expireStep now speeds t.affected
  let speeds1 := r.1
  let aff1 := r.2
  if cd = 0 then
    match colliding.find? (fun z => !(aff1.any (fun p => p.1 == z))) with
    | some z =>
      (⟨now + slow_cooldown_time, aff1 ++ [(z, now + slow_duration)]⟩,
        fun i => if i = z then speeds1 i * slow_factor else speeds1 i)
    | none => (⟨cd, aff1⟩, speeds1)
  else (⟨cd, aff1⟩, speeds1)

/-! ### Fire sequences -/

/-- Bullets spawned per trigger-pull by `Weapon.create_bullet`:
6 pellets for the shotgun, 1 bullet otherwise. -/
def pellets (t : WeaponType) : ℕ := if t = shotgun then 6 else 1

/-- `n` consecutive fire attempts through `Weapon.create_bullet` (at a fixed
origin/angle, with no random draws), returning the final weapon state and the
total number of bullets produced. -/
def fireN (w : Weapon) : ℕ → Weapon × ℕ
  | 0 => (w, 0)
  | n + 1 =>
    let r := fireN w n
    let s := r.1.create_bullet 0 0 0 []
    (s.1, r.2 + s.2.length)

/-- A sequence of `Player.shoot` calls at the given pygame timestamps,
returning the final weapon state and the total number of bullets. -/
def shootTimes (w : Weapon) : List ℤ → Weapon × ℕ
  | [] => (w, 0)
  | t :: ts =>
    let r := Player.shoot w 0 0 0 t []
    let s := shootTimes r.1 ts
    (s.1, r.2.length + s.2)

/-- The §8 pistol-scenario fire schedule: 12 trigger pulls 1000 ms apart
(1000 ms ≥ the pistol's 0.7 s fire_rate). -/
def pistolTimes : List ℤ :=
  [1000, 2000, 3000, 4000, 5000, 6000, 7000, 8000, 9000, 10000, 11000, 12000]

/-! ## Claims -/

/-- C10: Player health always stays within `[0, max_health]`:
`Player.take_damage` clamps at 0 for every non-negative damage amount, and
`Player.heal` caps at `max_health` for every non-negative heal amount. -/
theorem player_health_clamped (h m a b : ℤ) (h0 : 0 ≤ h) (hm : h ≤ m)
    (ha : 0 ≤ a) (hb : 0 ≤ b) :
    (0 ≤ Player.take_damage h a ∧ Player.take_damage h a ≤ m) ∧
    (0 ≤ Player.heal h m b ∧ Player.heal h m b ≤ m) := by
  unfold Player.take_damage Player.heal
  omega

/-- Witness for C10 at health 40, max 100, damage 250 (exceeding current
health), heal 70. -/
theorem player_health_clamped_witness :
    (0 ≤ Player.take_damage 40 250 ∧ Player.take_damage 40 250 ≤ 100) ∧
    (0 ≤ Player.heal 40 100 70 ∧ Player.heal 40 100 70 ≤ 100) :=
  player_health_clamped 40 100 250 70 (by norm_num) (by norm_num)
    (by norm_num) (by norm_num)

/-- C9 counterexample: with left+up held, the squared per-tick displacement
is `2 * (7 * 0.7071)^2 ≠ 7^2`, so the resultant diagonal speed does not
equal the single-axis speed — the source scales by the literal `0.7071`,
not by `1/√2`. -/
theorem diagonal_speed_not_equal :
    (Player.move_delta true false true false).1 ^ 2 +
      (Player.move_delta true false true false).2 ^ 2 ≠ player_speed ^ 2 := by
  simp [Player.move_delta, player_speed, diag_factor]
  norm_num

/-- C9 (amended): each diagonal component is scaled by the literal `0.7071`
(a 4-digit decimal approximation of `1/√2`), so the resultant per-tick
speed never exceeds the single-axis speed, and is strictly below it when
both axes are active. -/
theorem diagonal_speed_bounded (l r u d : Bool) :
    (Player.move_delta l r u d).1 ^ 2 + (Player.move_delta l r u d).2 ^ 2
        ≤ player_speed ^ 2 ∧
    ((Player.move_delta l r u d).1 ≠ 0 → (Player.move_delta l r u d).2 ≠ 0 →
      (Player.move_delta l r u d).1 ^ 2 + (Player.move_delta l r u d).2 ^ 2
        < player_speed ^ 2) := by
  cases l <;> cases r <;> cases u <;> cases d <;>
    simp [Player.move_delta, player_speed, diag_factor] <;> norm_num

/-- Witness for C9 (amended) with left+up held. -/
theorem diagonal_speed_bounded_witness :
    (Player.move_delta true false true false).1 ≠ 0 ∧
    (Player.move_delta true false true false).2 ≠ 0 ∧
    (Player.move_delta true false true false).1 ^ 2 +
      (Player.move_delta true false true false).2 ^ 2 < player_speed ^ 2 :=
  ⟨by norm_num [Player.move_delta, player_speed, diag_factor],
   by norm_num [Player.move_delta, player_speed, diag_factor],
   (diagonal_speed_bounded true false true false).2
     (by norm_num [Player.move_delta, player_speed, diag_factor])
     (by norm_num [Player.move_delta, player_speed, diag_factor])⟩

/-- C8: a single successful shotgun fire at full ammo yields exactly 6
pellet bullets and decrements `current_ammo` by exactly 1 (6 → 5),
whatever the random spread draws are. -/
theorem shotgun_six_pellets_one_ammo (x y angle : ℚ) (draws : List ℚ) :
    ((mkWeapon .shotgun).create_bullet x y angle draws).2.length = 6 ∧
    ((mkWeapon .shotgun).create_bullet x y angle draws).1.current_ammo
      = some 5 := by
  simp [mkWeapon, Weapon.create_bullet, Weapon.is_melee, ammo_capacity]

/-- C7: on the explosion tick, a zombie at center distance `d` below the
explosion radius takes exactly `⌊base_damage * (1 - d/R)⌋` (Python `int()`
truncation of a non-negative value is the floor), and a zombie at `d ≥ R`
takes 0 (at `d = R` the code applies a damage of exactly 0). -/
theorem explosion_falloff_damage (d : ℚ) (h : ℤ) :
    (d < grenade_explosion_radius →
      explosionDamage d =
        ⌊(grenade_base_damage : ℚ) * (1 - d / grenade_explosion_radius)⌋ ∧
      Zombie.take_damage h (explosionDamage d) =
        h - ⌊(grenade_base_damage : ℚ) * (1 - d / grenade_explosion_radius)⌋) ∧
    (grenade_explosion_radius ≤ d →
      explosionDamage d = 0 ∧ Zombie.take_damage h (explosionDamage d) = h) := by
  unfold explosionDamage pyInt Zombie.take_damage grenade_explosion_radius
    grenade_base_damage
  constructor
  · intro hlt
    have hle : d ≤ (100 : ℚ) := le_of_lt hlt
    have hpos : 0 ≤ (100 : ℚ) * (1 - d / 100) := by
      have hq : d / 100 ≤ 1 := by
        rw [div_le_one (by norm_num : (0:ℚ) < 100)]; exact hle
      nlinarith
    have hpos' : (0:ℚ) ≤ ((100:ℤ):ℚ) * (1 - d / 100) := by push_cast; exact hpos
    rw [if_pos hle, if_pos hpos']
    exact ⟨rfl, rfl⟩
  · intro hge
    rcases eq_or_lt_of_le hge with heq | hgt
    · rw [← heq]
      norm_num
    · rw [if_neg (not_le.mpr hgt)]
      exact ⟨rfl, by ring⟩

/-- Witness for C7 at distances 50 (inside) and 150 (outside). -/
theorem explosion_falloff_damage_witness :
    explosionDamage 50 =
      ⌊(grenade_base_damage : ℚ) * (1 - 50 / grenade_explosion_radius)⌋ ∧
    explosionDamage 150 = 0 :=
  ⟨((explosion_falloff_damage 50 0).1
      (by norm_num [grenade_explosion_radius])).1,
   ((explosion_falloff_damage 150 0).2
      (by norm_num [grenade_explosion_radius])).1⟩

/-- Evaluation lemma: `Player.shoot` when the (millisecond-vs-seconds) gate
passes. -/
lemma Player.shoot_gate_pos (w : Weapon) (x y angle : ℚ) (now : ℤ)
    (draws : List ℚ)
    (h : ((now - w.last_shot_time : ℤ) : ℚ) ≥ fire_rate w.type) :
    Player.shoot w x y angle now draws =
      if w.is_melee then (w, [])
      else
        let r := w.create_bullet x y angle draws
        if r.2 ≠ [] then ({ r.1 with last_shot_time := now }, r.2) else r := by
  unfold Player.shoot
  rw [if_pos h]

/-- C2 (code bug): `Player.shoot` compares the elapsed time in pygame
**milliseconds** against `fire_rate` in **seconds**.  A pistol fire attempt
1 ms after the last shot — with only 0.001 s < 0.7 s elapsed — succeeds and
consumes ammo, while `Weapon.can_shoot` (the field's documented,
seconds-based gate in the same file) says the weapon cannot shoot. -/
theorem player_shoot_fire_rate_units_mismatch :
    (Player.shoot (mkWeapon .pistol) 0 0 0 1 []).2.length = 1 ∧
    (Player.shoot (mkWeapon .pistol) 0 0 0 1 []).1.current_ammo = some 11 ∧
    ((1 : ℚ) - 0) / 1000 < fire_rate .pistol ∧
    (mkWeapon .pistol).can_shoot 1 = false := by
  rw [Player.shoot_gate_pos _ _ _ _ _ _ (by norm_num [mkWeapon, fire_rate])]
  refine ⟨?_, ?_, by norm_num [fire_rate], ?_⟩
  · simp [mkWeapon, Weapon.create_bullet, Weapon.is_melee, ammo_capacity,
      weapon_damage, base_spread]
  · simp [mkWeapon, Weapon.create_bullet, Weapon.is_melee, ammo_capacity,
      weapon_damage, base_spread]
  · unfold Weapon.can_shoot
    norm_num [mkWeapon, fire_rate]

/-- C1 (code bug): the explosion pass of `Game.update` applies the area
damage on **every** tick on which `exploded` is true, not only at the
ARMED→EXPLODED transition.  A grenade thrown at t=0 with zero velocity on
top of a zombie (center distance 0, health 300) explodes at t=2000 ms
dealing 100 damage (health 200), and the next tick at t=2016 ms — while the
exploded visual persists — deals another 100 (health 100). -/
theorem grenade_area_damage_reapplied_each_tick :
    (grenadeTick (mkGrenade 0 0 0 0 0) 300 0 2000).1.exploded = true ∧
    (grenadeTick (mkGrenade 0 0 0 0 0) 300 0 2000).2 = 200 ∧
    (grenadeTick (grenadeTick (mkGrenade 0 0 0 0 0) 300 0 2000).1
        (grenadeTick (mkGrenade 0 0 0 0 0) 300 0 2000).2 0 2016).2 = 100 := by
  have hdmg : explosionDamage 0 = 100 := by
    unfold explosionDamage pyInt grenade_explosion_radius grenade_base_damage
    norm_num
  have h1 : grenadeTick (mkGrenade 0 0 0 0 0) 300 0 2000 =
      (⟨0, 0, 0, 0, true, 2000, 0, false⟩, 200) := by
    unfold grenadeTick mkGrenade Grenade.update Zombie.take_damage
    simp [grenade_fuse_time, grenade_speed, hdmg]
  rw [h1]
  have h2 : grenadeTick (⟨0, 0, 0, 0, true, 2000, 0, false⟩ : Grenade)
      200 0 2016 = (⟨0, 0, 0, 0, true, 2000, 0, false⟩, 100) := by
    unfold grenadeTick Grenade.update Zombie.take_damage
    simp [grenade_explosion_duration, hdmg]
  rw [h2]
  exact ⟨rfl, rfl, rfl⟩

/-- C3 counterexample: a Pistol (magazine-fed: `reload_stages = 1`, not the
Shotgun) at 5/12 ammo starts reloading, but `start_reload` leaves
`current_ammo` at 5 — only the Assault Rifle and Battle Rifle are zeroed. -/
theorem pistol_start_reload_keeps_ammo :
    (({ mkWeapon .pistol with current_ammo := some 5 }).start_reload 0).is_reloading
        = true ∧
    (({ mkWeapon .pistol with current_ammo := some 5 }).start_reload 0).current_ammo
        = some 5 := by
  unfold Weapon.start_reload
  simp [mkWeapon, Weapon.is_melee, capacity, ammo_capacity]

/-- C3 (amended): `start_reload` zeroes `current_ammo` immediately only for
the Assault Rifle and Battle Rifle (the weapons that "empty the magazine
first"); the Pistol and SMG keep their current ammo while reloading.  For
all four, `current_ammo` becomes full capacity exactly when the reload
completes after all `reload_stages` stages (2 for AR/BR, 1 for Pistol/SMG),
each stage taking at least `reload_time` seconds. -/
theorem magazine_reload_staging :
    (∀ (t : WeaponType) (a : ℕ) (t0 t1 t2 : ℤ),
      (t = .assault_rifle ∨ t = .battle_rifle) →
      a < capacity t →
      ((t1 - t0 : ℤ) : ℚ) ≥ reload_time t * 1000 →
      ((t2 - t1 : ℤ) : ℚ) ≥ reload_time t * 1000 →
      (({ mkWeapon t with current_ammo := some a }).start_reload t0).current_ammo
          = some 0 ∧
      (({ mkWeapon t with current_ammo := some a }).start_reload t0).is_reloading
          = true ∧
      ((({ mkWeapon t with current_ammo := some a }).start_reload t0).continue_reload
          t1).current_ammo = some 0 ∧
      ((({ mkWeapon t with current_ammo := some a }).start_reload t0).continue_reload
          t1).is_reloading = true ∧
      (((({ mkWeapon t with current_ammo := some a }).start_reload t0).continue_reload
          t1).continue_reload t2).current_ammo = some (capacity t) ∧
      (((({ mkWeapon t with current_ammo := some a }).start_reload t0).continue_reload
          t1).continue_reload t2).is_reloading = false) ∧
    (∀ (t : WeaponType) (a : ℕ) (t0 t1 : ℤ),
      (t = .pistol ∨ t = .smg) →
      a < capacity t →
      ((t1 - t0 : ℤ) : ℚ) ≥ reload_time t * 1000 →
      (({ mkWeapon t with current_ammo := some a }).start_reload t0).current_ammo
          = some a ∧
      (({ mkWeapon t with current_ammo := some a }).start_reload t0).is_reloading
          = true ∧
      ((({ mkWeapon t with current_ammo := some a }).start_reload t0).continue_reload
          t1).current_ammo = some (capacity t) ∧
      ((({ mkWeapon t with current_ammo := some a }).start_reload t0).continue_reload
          t1).is_reloading = false) := by
  constructor
  · rintro t a t0 t1 t2 (rfl | rfl) ha h1 h2
    · have h1' : reload_time .assault_rifle * 1000 ≤ (t1 : ℚ) - (t0 : ℚ) := by
        push_cast at h1
        linarith
      have h2' : reload_time .assault_rifle * 1000 ≤ (t2 : ℚ) - (t1 : ℚ) := by
        push_cast at h2
        linarith
      have e1 : ({ mkWeapon .assault_rifle with current_ammo := some a }).start_reload t0
          = ⟨.assault_rifle, some 0, 0, true, t0, 0, false⟩ := by
        unfold Weapon.start_reload
        simp [mkWeapon, Weapon.is_melee, ha]
      rw [e1]
      have e2 : (Weapon.continue_reload ⟨.assault_rifle, some 0, 0, true, t0, 0, false⟩ t1)
          = ⟨.assault_rifle, some 0, 0, true, t1, 1, false⟩ := by
        unfold Weapon.continue_reload
        simp [reload_stages, h1']
      rw [e2]
      have e3 : (Weapon.continue_reload ⟨.assault_rifle, some 0, 0, true, t1, 1, false⟩ t2)
          = ⟨.assault_rifle, some 25, 0, false, t1, 0, false⟩ := by
        unfold Weapon.continue_reload
        simp [reload_stages, h2', Weapon.finish_reload, capacity, ammo_capacity]
      rw [e3]
      simp [capacity, ammo_capacity]
    · have h1' : reload_time .battle_rifle * 1000 ≤ (t1 : ℚ) - (t0 : ℚ) := by
        push_cast at h1
        linarith
      have h2' : reload_time .battle_rifle * 1000 ≤ (t2 : ℚ) - (t1 : ℚ) := by
        push_cast at h2
        linarith
      have e1 : ({ mkWeapon .battle_rifle with current_ammo := some a }).start_reload t0
          = ⟨.battle_rifle, some 0, 0, true, t0, 0, false⟩ := by
        unfold Weapon.start_reload
        simp [mkWeapon, Weapon.is_melee, ha]
      rw [e1]
      have e2 : (Weapon.continue_reload ⟨.battle_rifle, some 0, 0, true, t0, 0, false⟩ t1)
          = ⟨.battle_rifle, some 0, 0, true, t1, 1, false⟩ := by
        unfold Weapon.continue_reload
        simp [reload_stages, h1']
      rw [e2]
      have e3 : (Weapon.continue_reload ⟨.battle_rifle, some 0, 0, true, t1, 1, false⟩ t2)
          = ⟨.battle_rifle, some 10, 0, false, t1, 0, false⟩ := by
        unfold Weapon.continue_reload
        simp [reload_stages, h2', Weapon.finish_reload, capacity, ammo_capacity]
      rw [e3]
      simp [capacity, ammo_capacity]
  · rintro t a t0 t1 (rfl | rfl) ha h1
    · have h1' : reload_time .pistol * 1000 ≤ (t1 : ℚ) - (t0 : ℚ) := by
        push_cast at h1
        linarith
      have e1 : ({ mkWeapon .pistol with current_ammo := some a }).start_reload t0
          = ⟨.pistol, some a, 0, true, t0, 0, false⟩ := by
        unfold Weapon.start_reload
        simp [mkWeapon, Weapon.is_melee, ha]
      rw [e1]
      have e2 : (Weapon.continue_reload ⟨.pistol, some a, 0, true, t0, 0, false⟩ t1)
          = ⟨.pistol, some 12, 0, false, t0, 0, false⟩ := by
        unfold Weapon.continue_reload
        simp [reload_stages, h1', Weapon.finish_reload, capacity, ammo_capacity]
      rw [e2]
      simp [capacity, ammo_capacity]
    · have h1' : reload_time .smg * 1000 ≤ (t1 : ℚ) - (t0 : ℚ) := by
        push_cast at h1
        linarith
      have e1 : ({ mkWeapon .smg with current_ammo := some a }).start_reload t0
          = ⟨.smg, some a, 0, true, t0, 0, false⟩ := by
        unfold Weapon.start_reload
        simp [mkWeapon, Weapon.is_melee, ha]
      rw [e1]
      have e2 : (Weapon.continue_reload ⟨.smg, some a, 0, true, t0, 0, false⟩ t1)
          = ⟨.smg, some 30, 0, false, t0, 0, false⟩ := by
        unfold Weapon.continue_reload
        simp [reload_stages, h1', Weapon.finish_reload, capacity, ammo_capacity]
      rw [e2]
      simp [capacity, ammo_capacity]

/-- Witness for C3 (amended): an Assault Rifle at 3/25 reloading from t=0
(stages at 2200 and 4400 ms) and a Pistol at 5/12 (single stage at
1200 ms). -/
theorem magazine_reload_staging_witness :
    (({ mkWeapon .assault_rifle with current_ammo := some 3 }).start_reload
        0).current_ammo = some 0 ∧
    ((({ mkWeapon .pistol with current_ammo := some 5 }).start_reload
        0).continue_reload 1200).current_ammo = some (capacity .pistol) :=
  ⟨(magazine_reload_staging.1 .assault_rifle 3 0 2200 4400 (Or.inl rfl)
      (by norm_num [capacity, ammo_capacity]) (by norm_num [reload_time])
      (by norm_num [reload_time])).1,
   (magazine_reload_staging.2 .pistol 5 0 1200 (Or.inl rfl)
      (by norm_num [capacity, ammo_capacity])
      (by norm_num [reload_time])).2.2.1⟩

/-- Every non-knife weapon type has `ammo_capacity = some capacity`. -/
lemma ammo_capacity_eq (t : WeaponType) (ht : t ≠ knife) :
    ammo_capacity t = some (capacity t) := by
  cases t <;> simp [ammo_capacity, capacity] at ht ⊢

/-- A `create_bullet` call with positive ammo decrements ammo by one, marks
the weapon fired, and yields `pellets` bullets. -/
lemma create_bullet_success (w : Weapon) (a : ℕ) (x y angle : ℚ)
    (draws : List ℚ) (ht : w.type ≠ knife) (ha : w.current_ammo = some (a + 1)) :
    (w.create_bullet x y angle draws).1 =
      { w with current_ammo := some a, has_fired_once := true } ∧
    (w.create_bullet x y angle draws).2.length = pellets w.type ∧
    (w.create_bullet x y angle draws).2 ≠ [] := by
  unfold Weapon.create_bullet
  have hm : w.is_melee = false := by
    simp [Weapon.is_melee]
    exact ht
  rw [hm]
  simp only [Bool.false_eq_true, if_false, ha]
  by_cases hs : w.type = shotgun <;> simp [hs, pellets]

/-- A `create_bullet` call with zero ammo is a no-op returning no bullets. -/
lemma create_bullet_zero (w : Weapon) (x y angle : ℚ) (draws : List ℚ)
    (ha : w.current_ammo = some 0) :
    w.create_bullet x y angle draws = (w, []) := by
  unfold Weapon.create_bullet
  by_cases hm : w.is_melee <;> simp [hm, ha]

/-- Ammo and bullet count after `n ≤ capacity` fire attempts from full. -/
lemma fireN_ammo (t : WeaponType) (ht : t ≠ knife) (n : ℕ)
    (hn : n ≤ capacity t) :
    (fireN (mkWeapon t) n).1.current_ammo = some (capacity t - n) ∧
    (fireN (mkWeapon t) n).2 = pellets t * n ∧
    (fireN (mkWeapon t) n).1.type = t := by
  induction n with
  | zero =>
    simp [fireN, mkWeapon, ammo_capacity_eq t ht]
  | succ n ih =>
    obtain ⟨iha, ihc, iht⟩ := ih (Nat.le_of_succ_le hn)
    have ha' : (fireN (mkWeapon t) n).1.current_ammo
        = some ((capacity t - (n + 1)) + 1) := by
      rw [iha]
      congr 1
      omega
    have ht' : (fireN (mkWeapon t) n).1.type ≠ knife := by
      rw [iht]; exact ht
    obtain ⟨h1, h2, _⟩ :=
      create_bullet_success (fireN (mkWeapon t) n).1 (capacity t - (n + 1))
        0 0 0 [] ht' ha'
    refine ⟨?_, ?_, ?_⟩
    · show (fireN (mkWeapon t) (n+1)).1.current_ammo = _
      simp only [fireN, h1]
    · simp only [fireN, h2, ihc, iht]
      ring
    · simp only [fireN, h1, iht]

/-- A pistol fired through `Player.shoot` at strictly increasing timestamps
(1 ms apart suffices for the millisecond-vs-seconds gate) consumes one round
and yields one bullet per call while ammo lasts. -/
lemma pistol_shootTimes_aux (ts : List ℤ) (w : Weapon) (a : ℕ)
    (hw : w.type = pistol) (ha : w.current_ammo = some a)
    (hlen : ts.length ≤ a) (hchain : List.Chain (· < ·) w.last_shot_time ts) :
    (shootTimes w ts).1.current_ammo = some (a - ts.length) ∧
    (shootTimes w ts).2 = ts.length ∧
    (shootTimes w ts).1.type = pistol := by
  induction ts generalizing w a with
  | nil => simp [shootTimes, ha, hw]
  | cons t ts ih =>
    rcases List.chain_cons.mp hchain with ⟨hlt, hrest⟩
    obtain ⟨b, rfl⟩ : ∃ b, a = b + 1 := by
      refine ⟨a - 1, ?_⟩
      have : 0 < a := lt_of_lt_of_le (by simp) hlen
      omega
    have hgate : ((t - w.last_shot_time : ℤ) : ℚ) ≥ fire_rate w.type := by
      rw [hw]
      have h1 : (1 : ℤ) ≤ t - w.last_shot_time := by omega
      have : (1 : ℚ) ≤ ((t - w.last_shot_time : ℤ) : ℚ) := by
        exact_mod_cast h1
      unfold fire_rate
      linarith
    have hmelee : w.is_melee = false := by
      simp [Weapon.is_melee, hw]
    obtain ⟨h1, h2, h3⟩ := create_bullet_success w b 0 0 0 [] (by rw [hw]; simp) ha
    have hshoot : Player.shoot w 0 0 0 t [] =
        ({ (w.create_bullet 0 0 0 []).1 with last_shot_time := t },
          (w.create_bullet 0 0 0 []).2) := by
      rw [Player.shoot_gate_pos _ _ _ _ _ _ hgate, hmelee]
      simp [h3]
    have hnext := ih ({ (w.create_bullet 0 0 0 []).1 with last_shot_time := t })
      b (by rw [h1]; exact hw) (by rw [h1]) (by simpa using hlen)
      (by rw [h1]; exact hrest)
    have hlen1 : (Player.shoot w 0 0 0 t []).2.length = 1 := by
      rw [hshoot]
      simpa [hw, pellets] using h2
    refine ⟨?_, ?_, ?_⟩
    · show (shootTimes w (t :: ts)).1.current_ammo = _
      simp only [shootTimes, hshoot]
      rw [hnext.1]
      congr 1
      simp only [List.length_cons]
      omega
    · show (shootTimes w (t :: ts)).2 = _
      simp only [shootTimes]
      rw [hlen1]
      simp only [shootTimes, hshoot] at hnext ⊢
      rw [hnext.2.1]
      simp only [List.length_cons]
      omega
    · show (shootTimes w (t :: ts)).1.type = _
      simp only [shootTimes, hshoot]
      exact hnext.2.2

/-- `Player.shoot` with an empty magazine returns no bullets and leaves the
weapon unchanged. -/
lemma shoot_empty_of_zero (w : Weapon) (now : ℤ)
    (hz : w.current_ammo = some 0) (ht : w.type ≠ knife) :
    Player.shoot w 0 0 0 now [] = (w, []) := by
  unfold Player.shoot
  by_cases hg : ((now - w.last_shot_time : ℤ) : ℚ) ≥ fire_rate w.type
  · rw [if_pos hg]
    have hm : w.is_melee = false := by
      simp [Weapon.is_melee]
      exact ht
    rw [hm]
    simp [create_bullet_zero w 0 0 0 [] hz]
  · rw [if_neg hg]

/-- C6: for every ammo-tracked weapon of capacity `C`, `N ≤ C` successful
fires from full ammo leave `current_ammo = C - N` and produce
`pellets * N` bullets; the `(C+1)`-th fire attempt returns an empty list
and leaves ammo at 0.  In particular the Pistol (capacity 12), fired 12
times at 1000 ms intervals (≥ its 0.7 s fire_rate), yields 12 bullets,
ends at 0 ammo, and the 13th call yields an empty list. -/
theorem ammo_after_n_fires :
    (∀ (t : WeaponType), t ≠ knife → ∀ n : ℕ, n ≤ capacity t →
      (fireN (mkWeapon t) n).1.current_ammo = some (capacity t - n) ∧
      (fireN (mkWeapon t) n).2 = pellets t * n) ∧
    (∀ (t : WeaponType), t ≠ knife →
      ((fireN (mkWeapon t) (capacity t)).1.create_bullet 0 0 0 []).2 = [] ∧
      ((fireN (mkWeapon t) (capacity t)).1.create_bullet 0 0 0 []).1.current_ammo
        = some 0) ∧
    ((shootTimes (mkWeapon pistol) pistolTimes).2 = 12 ∧
     (shootTimes (mkWeapon pistol) pistolTimes).1.current_ammo = some 0 ∧
     (Player.shoot (shootTimes (mkWeapon pistol) pistolTimes).1 0 0 0
        13000 []).2 = []) := by
  refine ⟨fun t ht n hn => ⟨(fireN_ammo t ht n hn).1, (fireN_ammo t ht n hn).2.1⟩,
    fun t ht => ?_, ?_⟩
  · have h := fireN_ammo t ht (capacity t) le_rfl
    have hz : (fireN (mkWeapon t) (capacity t)).1.current_ammo = some 0 := by
      rw [h.1]
      simp
    rw [create_bullet_zero _ 0 0 0 [] hz]
    exact ⟨rfl, hz⟩
  · have haux := pistol_shootTimes_aux pistolTimes (mkWeapon pistol) 12 rfl
      (by simp [mkWeapon, ammo_capacity]) (by simp [pistolTimes])
      (by show List.Chain _ (0 : ℤ) _; simp [pistolTimes])
    refine ⟨by simpa [pistolTimes] using haux.2.1, ?_, ?_⟩
    · have := haux.1
      simpa [pistolTimes] using this
    · have hz : (shootTimes (mkWeapon pistol) pistolTimes).1.current_ammo
          = some 0 := by
        have := haux.1
        simpa [pistolTimes] using this
      rw [shoot_empty_of_zero _ _ hz (by rw [haux.2.2]; simp)]

/-- Witness for C6: Pistol after 5 fires, and the post-exhaustion fire. -/
theorem ammo_after_n_fires_witness :
    ((fireN (mkWeapon pistol) 5).1.current_ammo = some (capacity pistol - 5) ∧
      (fireN (mkWeapon pistol) 5).2 = pellets pistol * 5) ∧
    ((fireN (mkWeapon pistol) (capacity pistol)).1.create_bullet 0 0 0 []).2
       = [] :=
  ⟨ammo_after_n_fires.1 pistol (by simp) 5 (by norm_num [capacity, ammo_capacity]),
   (ammo_after_n_fires.2.1 pistol (by simp)).1⟩

/-- The latched `wave_complete_flag` is only ever true in reachable states
where spawning is finished and no zombie is alive. -/
lemma waveReachable_flag_inv (s : SimState) (h : WaveReachable s) :
    s.wave.wave_complete_flag = true → s.wave.zombies_to_spawn = 0 ∧ s.live = 0 := by
  induction h with
  | init => simp [mkWaveState]
  | start s h hp ih => simp [startNextWave]
  | tick s deaths spawnElapsed h hp ih =>
    intro hflag
    unfold simTick waveUpdate at hflag ⊢
    by_cases h0 : s.wave.zombies_to_spawn = 0
    · by_cases hl : s.live - deaths = 0
      · simp [h0, hl]
      · simp [h0, hl] at hflag ⊢
        have := ih hflag
        omega
    · by_cases hsp : spawnElapsed = true
      · simp [h0, hsp] at hflag ⊢
        exact absurd (ih hflag).1 h0
      · simp [h0, hsp] at hflag ⊢
        exact absurd (ih hflag).1 h0


/-- C4: in every reachable state of the wave system, `wave_complete()` is
false whenever spawning is unfinished or a zombie is alive; and whenever
spawning is finished and no zombie is alive, the wave update latches the
flag so that `wave_complete()` returns true. -/
theorem wave_complete_iff_drained (s : SimState) (h : WaveReachable s) :
    ((s.wave.zombies_to_spawn ≠ 0 ∨ s.live ≠ 0) → waveComplete s.wave = false) ∧
    (∀ b : Bool, s.wave.zombies_to_spawn = 0 → s.live = 0 →
      waveComplete (waveUpdate s.wave s.live b).1 = true) := by
  constructor
  · intro hne
    by_contra hc
    have htrue : waveComplete s.wave = true := by
      cases hcc : waveComplete s.wave
      · exact absurd hcc hc
      · rfl
    unfold waveComplete at htrue
    rw [Bool.and_eq_true] at htrue
    have hz : s.wave.zombies_to_spawn = 0 := by
      have := htrue.2
      simpa using this
    have := waveReachable_flag_inv s h htrue.1
    rcases hne with hne | hne
    · exact hne this.1
    · exact hne this.2
  · intro b h0 hl
    unfold waveUpdate
    simp [h0, hl, waveComplete]

/-- Witness for C4: right after wave 1 starts (5 zombies still to spawn),
`wave_complete()` is false. -/
theorem wave_complete_iff_drained_witness :
    waveComplete (startNextWave mkWaveState) = false :=
  (wave_complete_iff_drained ⟨startNextWave mkWaveState, 0, true⟩
    (WaveReachable.start ⟨mkWaveState, 0, false⟩ WaveReachable.init rfl)).1
    (Or.inl (by simp [startNextWave, mkWaveState, base_zombies]))

/-- The expiry loop leaves untouched the speed of any zombie that has no
entry in the affected list. -/
lemma expireStep_ne (now : ℤ) (speeds : ℕ → ℚ) (aff : List (ℕ × ℤ)) (z : ℕ)
    (hz : ∀ p ∈ aff, p.1 ≠ z) : (expireStep now speeds aff).1 z = speeds z := by
  induction aff generalizing speeds with
  | nil => rfl
  | cons p rest ih =>
    obtain ⟨z', e'⟩ := p
    have hz' : z' ≠ z := hz (z', e') (List.mem_cons_self _ _)
    unfold expireStep
    by_cases he : now ≥ e'
    · rw [if_pos he]
      rw [ih _ (fun q hq => hz q (List.mem_cons_of_mem _ hq))]
      rw [if_neg (Ne.symm hz')]
    · rw [if_neg he]
      exact ih speeds (fun q hq => hz q (List.mem_cons_of_mem _ hq))

/-- A zombie whose debuff window has not elapsed keeps its (slowed) speed
through the expiry loop and stays in the affected list. -/
lemma expireStep_mem_keep (now : ℤ) (speeds : ℕ → ℚ) (aff : List (ℕ × ℤ))
    (z : ℕ) (e : ℤ) (hmem : (z, e) ∈ aff)
    (hkeys : (aff.map Prod.fst).Nodup) (hlive : now < e) :
    (expireStep now speeds aff).1 z = speeds z ∧
    z ∈ (expireStep now speeds aff).2.map Prod.fst := by
  induction aff generalizing speeds with
  | nil => cases hmem
  | cons p rest ih =>
    obtain ⟨z', e'⟩ := p
    have hkr : (rest.map Prod.fst).Nodup := (List.nodup_cons.mp hkeys).2
    rcases List.mem_cons.mp hmem with heq | hmem'
    · injection heq with h1 h2
      subst h1
      subst h2
      unfold expireStep
      rw [if_neg (by omega : ¬ now ≥ e)]
      constructor
      · have hnot : ∀ p ∈ rest, p.1 ≠ z := by
          intro q hq
          have hzk : z ∉ rest.map Prod.fst := (List.nodup_cons.mp hkeys).1
          intro hc
          exact hzk (List.mem_map.mpr ⟨q, hq, hc⟩)
        exact expireStep_ne now speeds rest z hnot
      · simp
    · have hzk : z' ∉ rest.map Prod.fst := (List.nodup_cons.mp hkeys).1
      have hzz : z' ≠ z := by
        intro hc
        subst hc
        exact hzk (List.mem_map.mpr ⟨(z', e), hmem', rfl⟩)
      unfold expireStep
      by_cases he : now ≥ e'
      · rw [if_pos he]
        obtain ⟨h1, h2⟩ := ih
          (fun i => if i = z' then speeds i / slow_factor else speeds i) hmem' hkr
        refine ⟨?_, h2⟩
        rw [h1]
        rw [if_neg (Ne.symm hzz)]
      · rw [if_neg he]
        obtain ⟨h1, h2⟩ := ih speeds hmem' hkr
        exact ⟨h1, by simpa using Or.inr (by simpa using h2)⟩


/-- C5: (i) a zombie already in a SlowTrap's affected set whose debuff
window has not elapsed is never slowed again by that trap's update — its
speed is unchanged whatever collisions occur; (ii) a full apply/expire
round trip (trapped at `t1`, update at `t2 ≥ t1 + slow_duration`) first
multiplies the speed by `slow_factor` and then restores it exactly —
`(v * (1/2)) / (1/2) = v` in exact arithmetic — leaving the affected set
empty, with no cumulative drift. -/
theorem slowtrap_no_double_apply_and_exact_restore :
    (∀ (t : SlowTrap) (speeds : ℕ → ℚ) (colliding : List ℕ) (now : ℤ)
        (z : ℕ) (e : ℤ), (t.affected.map Prod.fst).Nodup →
        (z, e) ∈ t.affected → now < e →
        (SlowTrap.update t speeds colliding now).2 z = speeds z) ∧
    (∀ (z : ℕ) (speeds : ℕ → ℚ) (t1 t2 : ℤ), 0 ≤ t1 →
        t1 + slow_duration ≤ t2 →
        (SlowTrap.update ⟨0, []⟩ speeds [z] t1).2 z = speeds z * slow_factor ∧
        (SlowTrap.update (SlowTrap.update ⟨0, []⟩ speeds [z] t1).1
            (SlowTrap.update ⟨0, []⟩ speeds [z] t1).2 [] t2).2 z = speeds z ∧
        (SlowTrap.update (SlowTrap.update ⟨0, []⟩ speeds [z] t1).1
            (SlowTrap.update ⟨0, []⟩ speeds [z] t1).2 [] t2).1.affected = []) := by
  constructor
  · intro t speeds colliding now z e hkeys hmem hlive
    obtain ⟨hs1, hs2⟩ := expireStep_mem_keep now speeds t.affected z e hmem hkeys hlive
    unfold SlowTrap.update
    cases hF : colliding.find?
        (fun y => !((expireStep now speeds t.affected).2.any (fun p => p.1 == y))) with
    | none =>
      simp only [hF]
      split <;> split <;> simp only [hs1]
    | some y =>
      have hpred := List.find?_some hF
      have hzy : z ≠ y := by
        intro hc
        subst hc
        rw [Bool.not_eq_eq_eq_not, Bool.not_true, List.any_eq_false] at hpred
        rcases List.mem_map.mp hs2 with ⟨p, hp, hpz⟩
        have := hpred p hp
        rw [hpz] at this
        simp at this
      simp only [hF]
      split <;> split <;> simp only [hs1, if_neg hzy]
  · intro z speeds t1 t2 h0 h12
    have e1 : SlowTrap.update ⟨0, []⟩ speeds [z] t1 =
        (⟨t1 + slow_cooldown_time, [(z, t1 + slow_duration)]⟩,
          fun i => if i = z then speeds i * slow_factor else speeds i) := by
      unfold SlowTrap.update expireStep
      simp [List.find?]
    rw [e1]
    refine ⟨by simp, ?_, ?_⟩
    · have e2 : SlowTrap.update ⟨t1 + slow_cooldown_time, [(z, t1 + slow_duration)]⟩
          (fun i => if i = z then speeds i * slow_factor else speeds i) [] t2 =
          (⟨0, []⟩,
            fun i => if i = z
              then (if i = z then speeds i * slow_factor else speeds i) / slow_factor
              else (if i = z then speeds i * slow_factor else speeds i)) := by
        unfold SlowTrap.update expireStep
        have hc1 : t1 + slow_cooldown_time > 0 := by
          unfold slow_cooldown_time
          omega
        have hc2 : t2 ≥ t1 + slow_cooldown_time := by
          unfold slow_cooldown_time slow_duration at *
          omega
        have hc3 : t2 ≥ t1 + slow_duration := by omega
        simp [hc1, hc2, hc3, List.find?, expireStep]
      rw [e2]
      simp [slow_factor]
    · have e2 : (SlowTrap.update ⟨t1 + slow_cooldown_time, [(z, t1 + slow_duration)]⟩
          (fun i => if i = z then speeds i * slow_factor else speeds i) [] t2).1.affected
          = [] := by
        unfold SlowTrap.update
        have hc1 : t1 + slow_cooldown_time > 0 := by
          unfold slow_cooldown_time
          omega
        have hc2 : t2 ≥ t1 + slow_cooldown_time := by
          unfold slow_cooldown_time slow_duration at *
          omega
        have hc3 : t2 ≥ t1 + slow_duration := by omega
        simp [hc1, hc2, hc3, List.find?, expireStep]
      exact e2


/-- Witness for C5: zombie 0 at speed 4 trapped at t=0 is slowed to 2 and
restored to exactly 4 at t=2000. -/
theorem slowtrap_witness :
    (SlowTrap.update ⟨0, []⟩ (fun _ => 4) [0] 0).2 0 = 4 * slow_factor ∧
    (SlowTrap.update (SlowTrap.update ⟨0, []⟩ (fun _ => 4) [0] 0).1
        (SlowTrap.update ⟨0, []⟩ (fun _ => 4) [0] 0).2 [] 2000).2 0 = 4 :=
  ⟨(slowtrap_no_double_apply_and_exact_restore.2 0 (fun _ => 4) 0 2000
      (by norm_num) (by norm_num [slow_duration])).1,
   (slowtrap_no_double_apply_and_exact_restore.2 0 (fun _ => 4) 0 2000
      (by norm_num) (by norm_num [slow_duration])).2.1⟩

end ZombieShooter
